import Mathlib

/-!
Verification development for the Primevo BigBuy → public feed pipeline
(`src/fetch_and_publish.py`). The filter engine (`_keep_row` and its
helpers), the pricing engine (`_calc_fields`) and the post-filter
sort/cap step of `main` are shallowly embedded below. Python floats are
modelled by exact rationals (`ℚ`), Python ints by `ℤ`, records by a
structure of raw string fields (the XML parser yields an empty string
for a missing element), and the module-level configuration globals by
an explicit `Config`/`RuleSet` value whose defaults mirror the
environment-variable defaults of the source.
-/

set_option maxRecDepth 4000

namespace Primevo

/-! ## Numeric helpers

`qmin`, `qmax`, `ratFloor` and `ratCeil` are kernel-computable forms of
`min`, `max`, `⌊·⌋` and `⌈·⌉` on `ℚ`; the bridging lemmas right after
each definition identify them with the Mathlib notions. -/

/-- Minimum of two rationals (kernel-computable form of `min`). -/
def qmin (a b : ℚ) : ℚ := if a ≤ b then a else b

/-- Maximum of two rationals (kernel-computable form of `max`). -/
def qmax (a b : ℚ) : ℚ := if a ≤ b then b else a

theorem qmin_eq (a b : ℚ) : qmin a b = min a b := by
  by_cases h : a ≤ b <;> simp [qmin, min_def, h]

theorem qmax_eq (a b : ℚ) : qmax a b = max a b := by
  by_cases h : a ≤ b <;> simp [qmax, max_def, h]

/-- Floor of a rational (kernel-computable form of `⌊·⌋`). -/
def ratFloor (q : ℚ) : ℤ := q.num / q.den

/-- Ceiling of a rational (kernel-computable form of `⌈·⌉`). -/
def ratCeil (q : ℚ) : ℤ := -ratFloor (-q)

theorem ratFloor_eq (q : ℚ) : ratFloor q = ⌊q⌋ := Rat.floor_def.symm

theorem ratCeil_eq (q : ℚ) : ratCeil q = ⌈q⌉ := by
  rw [ratCeil, ratFloor_eq, Int.floor_neg, neg_neg]

/-- Rounding of a rational to the nearest integer, ties to even:
the behaviour of the Python built-in `round` on exact values. -/
def pyRoundInt (x : ℚ) : ℤ :=
  let f := ratFloor x
  let r := x - f
  if r < 1/2 then f
  else if 1/2 < r then f + 1
  else if f % 2 = 0 then f else f + 1

/-- Model of Python `round(x, n)` on exact rational values. -/
def pyRound (n : ℕ) (x : ℚ) : ℚ := (pyRoundInt (x * 10 ^ n) : ℚ) / 10 ^ n

/-- Numeric value of a list of decimal digit characters. -/
def digitsVal (cs : List Char) : ℕ :=
  cs.foldl (fun a c => 10 * a + (c.toNat - 48)) 0

/-- Model of Python `str.strip()`: drop whitespace from both ends. -/
def pyStrip (cs : List Char) : List Char :=
  ((cs.dropWhile Char.isWhitespace).reverse.dropWhile Char.isWhitespace).reverse

/-- Parses an optionally-dotted digit string (`123`, `12.5`, `.5`, `3.`)
from the front of a character list, returning its value and the rest. -/
def parseUnsigned (cs : List Char) : Option (ℚ × List Char) :=
  let ip := cs.takeWhile Char.isDigit
  let rest := cs.dropWhile Char.isDigit
  match rest with
  | '.' :: rest2 =>
    let fp := rest2.takeWhile Char.isDigit
    let rest3 := rest2.dropWhile Char.isDigit
    if ip.isEmpty ∧ fp.isEmpty then none
    else some ((digitsVal ip : ℚ) + (digitsVal fp : ℚ) / 10 ^ fp.length, rest3)
  | _ => if ip.isEmpty then none else some ((digitsVal ip : ℚ), rest)

/-- Model of Python `float(s)` on finite decimal literals: surrounding
whitespace is stripped, then an optional sign, a digit string with an
optional dot, and an optional `e`/`E` exponent are accepted; anything
else fails (`none`). -/
def parseDecimal (s : String) : Option ℚ :=
  let cs := pyStrip s.toList
  let sgn : ℚ := match cs with | '-' :: _ => -1 | _ => 1
  let cs1 := match cs with | '+' :: t => t | '-' :: t => t | t => t
  match parseUnsigned cs1 with
  | none => none
  | some (v, rest) =>
    match rest with
    | [] => some (sgn * v)
    | c :: rest2 =>
      if c = 'e' ∨ c = 'E' then
        let esgn : ℤ := match rest2 with | '-' :: _ => -1 | _ => 1
        let rest3 := match rest2 with | '+' :: t => t | '-' :: t => t | t => t
        let ed := rest3.takeWhile Char.isDigit
        let rest4 := rest3.dropWhile Char.isDigit
        if ed.isEmpty ∨ ¬ rest4.isEmpty then none
        else some (sgn * v * 10 ^ (esgn * (digitsVal ed : ℤ)))
      else none

/-- Model of `str.replace(",", ".")` for the single-character pattern
used by `_pfloat`: every comma character becomes a period. -/
def commaToDot (s : String) : String :=
  String.mk (s.toList.map fun c => if c = ',' then '.' else c)

/-- Embedding of `_pfloat`: replace commas by periods, parse as a float,
and fall back to `default` when parsing fails. -/
def _pfloat (x : String) (default : ℚ := 0) : ℚ :=
  match parseDecimal (commaToDot x) with
  | some v => v
  | none => default

/-- Truncation toward zero, the behaviour of Python `int` on a float. -/
def ratTrunc (q : ℚ) : ℤ := if q < 0 then ⌈q⌉ else ⌊q⌋

/-- Embedding of `_pint`: parse as a float (no comma replacement),
truncate toward zero, and fall back to `default` on failure. -/
def _pint (x : String) (default : ℤ := 0) : ℤ :=
  match parseDecimal x with
  | some v => ratTrunc v
  | none => default

/-! ## Timestamps -/

/-- Number of days in a month of the proleptic Gregorian calendar. -/
def daysInMonth (y m : ℤ) : ℤ :=
  if m = 2 then (if (y % 4 = 0 ∧ y % 100 ≠ 0) ∨ y % 400 = 0 then 29 else 28)
  else if m = 4 ∨ m = 6 ∨ m = 9 ∨ m = 11 then 30 else 31

/-- Days from the Unix epoch to the civil date `y-m-d`
(the Howard Hinnant `days_from_civil` algorithm). -/
def daysFromCivil (y m d : ℤ) : ℤ :=
  let y1 := if m ≤ 2 then y - 1 else y
  let era := Int.fdiv y1 400
  let yoe := y1 - era * 400
  let mp := (m + 9) % 12
  let doy := (153 * mp + 2) / 5 + d - 1
  let doe := yoe * 365 + yoe / 4 - yoe / 100 + doy
  era * 146097 + doe - 719468

/-- Model of `datetime.strptime(s, "%Y-%m-%d %H:%M:%S")`, returning the
timestamp as seconds since the Unix epoch, or `none` on any parse or
range failure (exactly four year digits, one or two digits elsewhere,
calendar-valid month/day, hour ≤ 23, minute and second ≤ 59). -/
def parseTimestamp (cs : List Char) : Option ℤ :=
  let yd := cs.takeWhile Char.isDigit
  let r1 := cs.dropWhile Char.isDigit
  if yd.length ≠ 4 then none else
  match r1 with
  | '-' :: r2 =>
    let md := r2.takeWhile Char.isDigit
    let r3 := r2.dropWhile Char.isDigit
    if md.length = 0 ∨ 2 < md.length then none else
    match r3 with
    | '-' :: r4 =>
      let dd := r4.takeWhile Char.isDigit
      let r5 := r4.dropWhile Char.isDigit
      if dd.length = 0 ∨ 2 < dd.length then none else
      match r5 with
      | ' ' :: r6 =>
        let hd := r6.takeWhile Char.isDigit
        let r7 := r6.dropWhile Char.isDigit
        if hd.length = 0 ∨ 2 < hd.length then none else
        match r7 with
        | ':' :: r8 =>
          let mind := r8.takeWhile Char.isDigit
          let r9 := r8.dropWhile Char.isDigit
          if mind.length = 0 ∨ 2 < mind.length then none else
          match r9 with
          | ':' :: r10 =>
            let sd := r10.takeWhile Char.isDigit
            let r11 := r10.dropWhile Char.isDigit
            if sd.length = 0 ∨ 2 < sd.length ∨ ¬ r11.isEmpty then none else
            let y : ℤ := digitsVal yd
            let mo : ℤ := digitsVal md
            let d : ℤ := digitsVal dd
            let h : ℤ := digitsVal hd
            let mi : ℤ := digitsVal mind
            let se : ℤ := digitsVal sd
            if 1 ≤ y ∧ 1 ≤ mo ∧ mo ≤ 12 ∧ 1 ≤ d ∧ d ≤ daysInMonth y mo ∧
               h ≤ 23 ∧ mi ≤ 59 ∧ se ≤ 59 then
              some (daysFromCivil y mo d * 86400 + h * 3600 + mi * 60 + se)
            else none
          | _ => none
        | _ => none
      | _ => none
    | _ => none
  | _ => none

/-! ## Configuration and records -/

/-- Module-level configuration of the script: the environment-variable
driven globals, packaged as an explicit value. String field `AVP_SOURCE`
holds the already stripped and lower-cased selector. -/
structure Config where
  MIN_PRICE : ℚ
  MAX_PRICE : ℚ
  MIN_STOCK : ℤ
  MAX_WEIGHT : ℚ
  RECENT_MONTHS : ℤ
  MAX_PRODUCTS : ℤ
  VAT_PCT_DEFAULT : ℚ
  SHIP_COST_EUR : ℚ
  BOL_FEE_PCT : ℚ
  BOL_FEE_FIXED : ℚ
  MIN_PROFIT_EUR : ℚ
  MIN_MARGIN_PCT : ℚ
  AVP_SOURCE : String
deriving Repr

/-- Default configuration values from the source. -/
def defaultConfig : Config :=
  { MIN_PRICE := 10, MAX_PRICE := 80, MIN_STOCK := 1, MAX_WEIGHT := 8,
    RECENT_MONTHS := 18, MAX_PRODUCTS := 5000, VAT_PCT_DEFAULT := 21,
    SHIP_COST_EUR := 0, BOL_FEE_PCT := 12, BOL_FEE_FIXED := 3/10,
    MIN_PROFIT_EUR := 3, MIN_MARGIN_PCT := 15, AVP_SOURCE := "price" }

/-- Rule files loaded at startup: `DENY_WORDS` holds the already
lower-cased keywords, as produced by the loading code. -/
structure RuleSet where
  ALLOW_CATS : List String
  DENY_WORDS : List String
  ALLOW_BRANDS : List String
deriving Repr

/-- Empty rule files: no category, keyword or brand restriction. -/
def emptyRules : RuleSet := ⟨[], [], []⟩

/-- One parsed catalog record: the `FIELDS` list of the source, each as
the raw element text (empty string when the element is missing). -/
structure Row where
  id : String := ""
  name : String := ""
  description : String := ""
  price : String := ""
  pvp_bigbuy : String := ""
  pvd : String := ""
  iva : String := ""
  ean13 : String := ""
  stock : String := ""
  image1 : String := ""
  category : String := ""
  brand : String := ""
  date_upd : String := ""
  width : String := ""
  height : String := ""
  depth : String := ""
  weight : String := ""
deriving Repr

/-! ## Filter engine -/

/-- Embedding of `_is_recent`: empty strings and unparseable timestamps
pass; a parsed timestamp passes iff its age in whole days is at most
`RECENT_MONTHS * 30`. `now` stands for `datetime.now()` in seconds. -/
def _is_recent (cfg : Config) (now : ℤ) (iso : String) : Bool :=
  if iso = "" then true
  else
    match parseTimestamp (pyStrip iso.toList) with
    | none => true
    | some dt => decide (Int.fdiv (now - dt) 86400 ≤ cfg.RECENT_MONTHS * 30)

/-- Model of Python `str.split(",")`: split into the (possibly empty)
chunks between comma characters. -/
def splitComma (cs : List Char) : List (List Char) :=
  cs.foldr (fun c acc =>
    if c = ',' then [] :: acc
    else
      match acc with
      | g :: gs => (c :: g) :: gs
      | [] => [[c]]) [[]]

/-- Embedding of `_has_allowed_category`. -/
def _has_allowed_category (rules : RuleSet) (cat_field : String) : Bool :=
  if rules.ALLOW_CATS.isEmpty then true
  else
    let parts := ((splitComma cat_field.toList).map pyStrip).filter (fun p => ¬ p.isEmpty)
    parts.any fun p => rules.ALLOW_CATS.contains (String.mk p)

/-- Model of Python `str.lower()` on the character list of a string
(ASCII case folding). -/
def lowerChars (s : String) : List Char := s.toList.map Char.toLower

/-- Embedding of `_has_bad_word`: substring scan of the lower-cased
name-plus-description against the (pre-lowered) deny keywords. -/
def _has_bad_word (rules : RuleSet) (name desc : String) : Bool :=
  if rules.DENY_WORDS.isEmpty then false
  else
    let t := lowerChars (name ++ " " ++ desc)
    rules.DENY_WORDS.any fun bad => decide (bad.toList <:+: t)

/-- Embedding of `_keep_row`: the early-return chain of filter checks. -/
def _keep_row (cfg : Config) (rules : RuleSet) (now : ℤ) (r : Row) : Bool :=
  if ¬ _has_allowed_category rules r.category then false
  else if _pint r.stock < cfg.MIN_STOCK then false
  else if ¬ (cfg.MIN_PRICE ≤ _pfloat r.price ∧ _pfloat r.price ≤ cfg.MAX_PRICE) then false
  else if r.ean13 = "" ∨ r.image1 = "" then false
  else if _pfloat r.weight ≠ 0 ∧ cfg.MAX_WEIGHT < _pfloat r.weight then false
  else if r.date_upd ≠ "" ∧ ¬ _is_recent cfg now r.date_upd then false
  else if ¬ rules.ALLOW_BRANDS.isEmpty ∧ ¬ rules.ALLOW_BRANDS.contains r.brand then false
  else if _has_bad_word rules r.name r.description then false
  else true

/-! ## Pricing engine

`_calc_fields` is decomposed into named intermediate quantities so that
theorems can speak about the denominators, the pre-rounding sell price,
the profit and the margin directly; `_calc_fields` itself assembles the
returned record from them. -/

/-- Epsilon guard of the source (`1e-9`). -/
def epsDenom : ℚ := 1 / 10 ^ 9

/-- Effective VAT fraction: the per-record `iva` percentage when given,
else the configured default, divided by 100. -/
def calc_vat (cfg : Config) (iva_pct : Option ℚ) : ℚ :=
  (match iva_pct with | some v => v | none => cfg.VAT_PCT_DEFAULT) / 100

/-- Denominator of the minimum-profit floor: `max(1e-9, 1 - vat - f_pct)`. -/
def calc_denom_profit (cfg : Config) (iva_pct : Option ℚ) : ℚ :=
  qmax epsDenom (1 - calc_vat cfg iva_pct - cfg.BOL_FEE_PCT / 100)

/-- Denominator of the minimum-margin floor:
`max(1e-9, 1 - vat - f_pct - minMarg)`. -/
def calc_denom_margin (cfg : Config) (iva_pct : Option ℚ) : ℚ :=
  qmax epsDenom (1 - calc_vat cfg iva_pct - cfg.BOL_FEE_PCT / 100 - cfg.MIN_MARGIN_PCT / 100)

/-- Minimum-profit sell-price floor `s1`. -/
def calc_s1 (cfg : Config) (pvd : ℚ) (iva_pct : Option ℚ) : ℚ :=
  (cfg.MIN_PROFIT_EUR + cfg.BOL_FEE_FIXED + cfg.SHIP_COST_EUR + pvd) /
    calc_denom_profit cfg iva_pct

/-- Minimum-margin sell-price floor `s2`. -/
def calc_s2 (cfg : Config) (pvd : ℚ) (iva_pct : Option ℚ) : ℚ :=
  (cfg.BOL_FEE_FIXED + cfg.SHIP_COST_EUR + pvd) / calc_denom_margin cfg iva_pct

/-- Embedding of `_round_up_to_euro`: `math.ceil(max(0.0, x))`. -/
def _round_up_to_euro (x : ℚ) : ℚ := (ratCeil (qmax 0 x) : ℤ)

/-- Base price `s_base = max(minP, s1, s2, avp_inc_choice or 0.0)`; the
Python `or` turns a zero reference price into `0.0`, kept literally. -/
def calc_s_base (cfg : Config) (pvd avp : ℚ) (iva_pct : Option ℚ) : ℚ :=
  qmax cfg.MIN_PRICE (qmax (calc_s1 cfg pvd iva_pct)
    (qmax (calc_s2 cfg pvd iva_pct) (if avp = 0 then 0 else avp)))

/-- Pre-rounding sell price `s = min(maxP, round_up_to_euro(s_base) - 0.01)`. -/
def calc_s (cfg : Config) (pvd avp : ℚ) (iva_pct : Option ℚ) : ℚ :=
  qmin cfg.MAX_PRICE (_round_up_to_euro (calc_s_base cfg pvd avp iva_pct) - 1/100)

/-- Profit at the computed sell price. -/
def calc_profit (cfg : Config) (pvd avp : ℚ) (iva_pct : Option ℚ) : ℚ :=
  calc_s cfg pvd avp iva_pct * (1 - calc_vat cfg iva_pct - cfg.BOL_FEE_PCT / 100) -
    (cfg.BOL_FEE_FIXED + cfg.SHIP_COST_EUR + pvd)

/-- Margin: `profit / s` when `s > 0`, else `0.0`. -/
def calc_margin (cfg : Config) (pvd avp : ℚ) (iva_pct : Option ℚ) : ℚ :=
  if 0 < calc_s cfg pvd avp iva_pct then
    calc_profit cfg pvd avp iva_pct / calc_s cfg pvd avp iva_pct
  else 0

/-- Compliance flag of `_calc_fields`. -/
def calc_ok (cfg : Config) (pvd avp : ℚ) (iva_pct : Option ℚ) : Bool :=
  decide (calc_profit cfg pvd avp iva_pct ≥ cfg.MIN_PROFIT_EUR ∧
    calc_margin cfg pvd avp iva_pct ≥ cfg.MIN_MARGIN_PCT / 100 ∧
    calc_s cfg pvd avp iva_pct ≥ cfg.MIN_PRICE ∧
    calc_s cfg pvd avp iva_pct ≤ cfg.MAX_PRICE)

/-- Result record of `_calc_fields`; `ok` is the `"TRUE"`/`"FALSE"`
string of the source, modelled as a `Bool`. -/
structure CalcResult where
  sell_price : ℚ
  profit_eur : ℚ
  margin_pct : ℚ
  ok : Bool
  avp_inc : ℚ
  avp_excl : ℚ
deriving Repr

/-- Embedding of `_calc_fields`. -/
def _calc_fields (cfg : Config) (pvd avp_inc_choice : ℚ) (iva_pct : Option ℚ) : CalcResult :=
  { sell_price := pyRound 2 (calc_s cfg pvd avp_inc_choice iva_pct)
    profit_eur := pyRound 2 (calc_profit cfg pvd avp_inc_choice iva_pct)
    margin_pct := pyRound 4 (calc_margin cfg pvd avp_inc_choice iva_pct)
    ok := calc_ok cfg pvd avp_inc_choice iva_pct
    avp_inc := pyRound 2 (if avp_inc_choice = 0 then 0 else avp_inc_choice)
    avp_excl := pyRound 2 (if avp_inc_choice = 0 then 0
      else avp_inc_choice / (1 + calc_vat cfg iva_pct)) }

/-! ## Post-filter sort and cap (`main`) -/

/-- Sort key comparison of `main`: ascending in the tuple
`(-stock, price)`, i.e. descending parsed stock, then ascending parsed
primary reference price. -/
def rowSortLE (a b : Row) : Bool :=
  decide (-(_pint a.stock) < -(_pint b.stock) ∨
    (-(_pint a.stock) = -(_pint b.stock) ∧ _pfloat a.price ≤ _pfloat b.price))

/-- Model of the Python slice `l[:m]` for an integer bound `m`. -/
def pySliceTake (m : ℤ) (l : List Row) : List Row :=
  if m < 0 then l.take ((l.length : ℤ) + m).toNat else l.take m.toNat

/-- Post-accumulation step of `main`: stable sort by `rowSortLE`, then
truncation when `MAX_PRODUCTS` is nonzero and exceeded. -/
def sortAndCap (cfg : Config) (rows : List Row) : List Row :=
  let sorted := rows.mergeSort rowSortLE
  if cfg.MAX_PRODUCTS ≠ 0 ∧ cfg.MAX_PRODUCTS < (sorted.length : ℤ) then
    pySliceTake cfg.MAX_PRODUCTS sorted
  else sorted

/-- Reference-price selector of `main`: `pvp_bigbuy` when `AVP_SOURCE`
says so, else the primary `price` field. -/
def avpChoice (cfg : Config) (r : Row) : ℚ :=
  if cfg.AVP_SOURCE = "pvp_bigbuy" then _pfloat r.pvp_bigbuy else _pfloat r.price

/-- Per-record `iva` argument passed by `main` to `_calc_fields`:
`None` when the field is empty, else the parse result (which is `None`
again when the nonempty text does not parse, since the call passes
`default=None`). -/
def ivaOf (r : Row) : Option ℚ :=
  if r.iva = "" then none else parseDecimal (commaToDot r.iva)

/-- Predicate for "a whole number of cents": `q * 100` is an integer. -/
def IsCents (q : ℚ) : Prop := ∃ n : ℤ, q * 100 = (n : ℚ)

/-! ## Concrete fixtures used by witnesses and counterexamples -/

/-- Extreme-but-representable configuration: per-record tax 200%, no
fees, negative profit and margin requirements, price band [-1, 5]. -/
def extremeConfig : Config :=
  { MIN_PRICE := -1, MAX_PRICE := 5, MIN_STOCK := 1, MAX_WEIGHT := 8,
    RECENT_MONTHS := 18, MAX_PRODUCTS := 5000, VAT_PCT_DEFAULT := 21,
    SHIP_COST_EUR := 0, BOL_FEE_PCT := 0, BOL_FEE_FIXED := 0,
    MIN_PROFIT_EUR := -100, MIN_MARGIN_PCT := -50, AVP_SOURCE := "price" }

/-- Record with primary price 30 and stock 5, otherwise valid. -/
def rowE1 : Row := { price := "30", stock := "5", ean13 := "1", image1 := "u" }

/-- Record with primary price 20 and stock 20, otherwise valid. -/
def rowE2 : Row := { price := "20", stock := "20", ean13 := "2", image1 := "u" }

/-- Record with primary price 10 and stock 1, otherwise valid. -/
def rowE3 : Row := { price := "10", stock := "1", ean13 := "3", image1 := "u" }

/-- Scenario B record: `stock` and `weight` missing, valid price,
`ean13` and `image1`. -/
def rowB : Row := { price := "30", ean13 := "4", image1 := "u" }

/-- Valid record priced exactly at the lower endpoint of the default band. -/
def rowAt10 : Row := { price := "10", stock := "5", ean13 := "5", image1 := "u" }

/-- Valid record priced exactly at the upper endpoint of the default band. -/
def rowAt80 : Row := { price := "80", stock := "5", ean13 := "6", image1 := "u" }

/-- Valid record priced one cent below the default band. -/
def rowBelow10 : Row := { price := "9.99", stock := "5", ean13 := "7", image1 := "u" }

/-- Valid record priced one cent above the default band. -/
def rowAbove80 : Row := { price := "80.01", stock := "5", ean13 := "8", image1 := "u" }

/-- Valid record carrying a parseable update timestamp. -/
def rowOld : Row :=
  { price := "30", stock := "5", ean13 := "9", image1 := "u",
    date_upd := "2024-01-02 03:04:05" }

/-! ## Shared lemmas -/

/-- Characterisation of `_keep_row` as the conjunction of its checks. -/
theorem keep_row_iff (cfg : Config) (rules : RuleSet) (now : ℤ) (r : Row) :
    _keep_row cfg rules now r = true ↔
      _has_allowed_category rules r.category = true ∧
      cfg.MIN_STOCK ≤ _pint r.stock ∧
      (cfg.MIN_PRICE ≤ _pfloat r.price ∧ _pfloat r.price ≤ cfg.MAX_PRICE) ∧
      (r.ean13 ≠ "" ∧ r.image1 ≠ "") ∧
      ¬ (_pfloat r.weight ≠ 0 ∧ cfg.MAX_WEIGHT < _pfloat r.weight) ∧
      ¬ (r.date_upd ≠ "" ∧ ¬ _is_recent cfg now r.date_upd = true) ∧
      ¬ (¬ rules.ALLOW_BRANDS.isEmpty = true ∧ ¬ rules.ALLOW_BRANDS.contains r.brand = true) ∧
      _has_bad_word rules r.name r.description = false := by
  unfold _keep_row
  split_ifs with h1 h2 h3 h4 h5 h6 h7 h8 <;>
    (simp_all [not_lt, not_le]; try tauto)

theorem pyRoundInt_intCast (n : ℤ) : pyRoundInt (n : ℚ) = n := by
  unfold pyRoundInt
  rw [ratFloor_eq, Int.floor_intCast]
  norm_num

/-- Rounding to two decimals is the identity on whole-cent amounts. -/
theorem pyRound_two_of_cents {q : ℚ} (h : IsCents q) : pyRound 2 q = q := by
  obtain ⟨n, hn⟩ := h
  unfold pyRound
  have h100 : ((10 : ℚ) ^ (2 : ℕ)) = 100 := by norm_num
  rw [h100, hn, pyRoundInt_intCast, ← hn]
  field_simp

/-- The pre-clamp candidate price is a whole number of cents. -/
theorem isCents_candidate (x : ℚ) : IsCents (_round_up_to_euro x - 1/100) := by
  refine ⟨ratCeil (qmax 0 x) * 100 - 1, ?_⟩
  unfold _round_up_to_euro
  push_cast
  ring

/-- The pre-rounding sell price is a whole number of cents whenever
`MAX_PRICE` is. -/
theorem isCents_calc_s (cfg : Config) (pvd avp : ℚ) (iva_pct : Option ℚ)
    (h : IsCents cfg.MAX_PRICE) : IsCents (calc_s cfg pvd avp iva_pct) := by
  unfold calc_s qmin
  split_ifs with hle
  · exact h
  · exact isCents_candidate _

/-- The returned `sell_price` equals the internal pre-rounding sell
price whenever `MAX_PRICE` is a whole number of cents. -/
theorem sell_price_eq_calc_s (cfg : Config) (pvd avp : ℚ) (iva_pct : Option ℚ)
    (h : IsCents cfg.MAX_PRICE) :
    (_calc_fields cfg pvd avp iva_pct).sell_price = calc_s cfg pvd avp iva_pct := by
  unfold _calc_fields
  exact pyRound_two_of_cents (isCents_calc_s cfg pvd avp iva_pct h)

/-- Unfolding of the compliance flag. -/
theorem calc_ok_iff (cfg : Config) (pvd avp : ℚ) (iva_pct : Option ℚ) :
    (_calc_fields cfg pvd avp iva_pct).ok = true ↔
      cfg.MIN_PROFIT_EUR ≤ calc_profit cfg pvd avp iva_pct ∧
      cfg.MIN_MARGIN_PCT / 100 ≤ calc_margin cfg pvd avp iva_pct ∧
      cfg.MIN_PRICE ≤ calc_s cfg pvd avp iva_pct ∧
      calc_s cfg pvd avp iva_pct ≤ cfg.MAX_PRICE := by
  unfold _calc_fields calc_ok
  simp [ge_iff_le]

/-- Monotonicity of the recency test in `RECENT_MONTHS`. -/
theorem is_recent_mono (c c' : Config) (now : ℤ) (iso : String)
    (hm : c.RECENT_MONTHS ≤ c'.RECENT_MONTHS)
    (h : _is_recent c now iso = true) : _is_recent c' now iso = true := by
  by_cases hiso : iso = ""
  · simp [_is_recent, hiso]
  · simp only [_is_recent, if_neg hiso] at h ⊢
    cases hp : parseTimestamp (pyStrip iso.toList) with
    | none => rfl
    | some dt =>
      rw [hp] at h
      replace h : decide ((now - dt).fdiv 86400 ≤ c.RECENT_MONTHS * 30) = true := h
      rw [decide_eq_true_eq] at h
      show decide ((now - dt).fdiv 86400 ≤ c'.RECENT_MONTHS * 30) = true
      rw [decide_eq_true_eq]
      omega

/-- Transitivity of the sort comparator of `main`. -/
theorem rowSortLE_trans (a b c : Row) (hab : rowSortLE a b) (hbc : rowSortLE b c) :
    rowSortLE a c := by
  simp only [rowSortLE, decide_eq_true_eq] at *
  rcases hab with h1 | ⟨h1, h1p⟩ <;> rcases hbc with h2 | ⟨h2, h2p⟩
  · left; omega
  · left; omega
  · left; omega
  · right; exact ⟨by omega, le_trans h1p h2p⟩

theorem rowSortLE_total (a b : Row) : rowSortLE a b || rowSortLE b a := by
  simp only [rowSortLE, Bool.or_eq_true, decide_eq_true_eq]
  rcases lt_trichotomy (-(_pint a.stock)) (-(_pint b.stock)) with h | h | h
  · left; left; exact h
  · rcases le_total (_pfloat a.price) (_pfloat b.price) with hp | hp
    · left; right; exact ⟨h, hp⟩
    · right; right; exact ⟨h.symm, hp⟩
  · right; left; exact h

theorem rowSortLE_iff (x y : Row) :
    rowSortLE x y = true ↔
      (_pint y.stock < _pint x.stock ∨
        (_pint x.stock = _pint y.stock ∧ _pfloat x.price ≤ _pfloat y.price)) := by
  simp only [rowSortLE, decide_eq_true_eq]
  constructor
  · rintro (h | ⟨h, hp⟩)
    · left; omega
    · right; exact ⟨by omega, hp⟩
  · rintro (h | ⟨h, hp⟩)
    · left; omega
    · right; exact ⟨by omega, hp⟩

theorem mergeSort_filter_key (rows : List Row) (s : ℤ) (p : ℚ) :
    (rows.mergeSort rowSortLE).filter
        (fun x => decide (_pint x.stock = s ∧ _pfloat x.price = p)) =
      rows.filter (fun x => decide (_pint x.stock = s ∧ _pfloat x.price = p)) := by
  set pk : Row → Bool := fun x => decide (_pint x.stock = s ∧ _pfloat x.price = p) with hpk
  have hmem : ∀ x ∈ rows.filter pk, _pint x.stock = s ∧ _pfloat x.price = p := by
    intro x hx
    have := (List.mem_filter.mp hx).2
    rw [hpk] at this
    exact of_decide_eq_true this
  have hpair : (rows.filter pk).Pairwise (fun x y => rowSortLE x y = true) := by
    apply List.pairwise_of_forall_mem_list
    intro x hx y hy
    rw [rowSortLE_iff]
    right
    obtain ⟨hxs, hxp⟩ := hmem x hx
    obtain ⟨hys, hyp⟩ := hmem y hy
    rw [hxs, hys, hxp, hyp]
    exact ⟨rfl, le_refl _⟩
  have hsub : List.Sublist (rows.filter pk) (rows.mergeSort rowSortLE) :=
    List.sublist_mergeSort rowSortLE_trans rowSortLE_total hpair (List.filter_sublist rows)
  have hsub2 : List.Sublist (rows.filter pk) ((rows.mergeSort rowSortLE).filter pk) := by
    have := hsub.filter pk
    rwa [List.filter_filter, (by
      funext x
      by_cases hx : pk x <;> simp [hx]
      : (fun x => pk x && pk x) = pk)] at this
  have hperm : ((rows.mergeSort rowSortLE).filter pk).length = (rows.filter pk).length :=
    ((rows.mergeSort_perm rowSortLE).filter pk).length_eq
  exact (hsub2.eq_of_length hperm.symm).symm


/-- C4: after accumulation the kept records are sorted by descending
parsed stock then ascending parsed primary price (first conjunct), the
stable sort preserves the relative order of key-tied records (second
conjunct: filtering the sorted list to any fixed stock/price key equals
filtering the input), a positive exceeded cap truncates to the prefix of
length `MAX_PRODUCTS` (third conjunct), and Scenario E holds: with cap 2
and stocks [5, 20, 1] / prices [30, 20, 10], the output is the stock-20
record then the stock-5 record (fourth conjunct). -/
theorem C4_sort_and_cap (cfg : Config) (rows : List Row) (s : ℤ) (p : ℚ) :
    (sortAndCap cfg rows).Pairwise (fun x y =>
      _pint y.stock < _pint x.stock ∨
        (_pint x.stock = _pint y.stock ∧ _pfloat x.price ≤ _pfloat y.price)) ∧
    ((rows.mergeSort rowSortLE).filter
        (fun x => decide (_pint x.stock = s ∧ _pfloat x.price = p)) =
      rows.filter (fun x => decide (_pint x.stock = s ∧ _pfloat x.price = p))) ∧
    (0 < cfg.MAX_PRODUCTS → cfg.MAX_PRODUCTS < (rows.length : ℤ) →
      sortAndCap cfg rows = (rows.mergeSort rowSortLE).take cfg.MAX_PRODUCTS.toNat) ∧
    sortAndCap { defaultConfig with MAX_PRODUCTS := 2 } [rowE1, rowE2, rowE3] =
      [rowE2, rowE1] := by
  refine ⟨?_, mergeSort_filter_key rows s p, ?_, ?_⟩
  · have hsorted : (rows.mergeSort rowSortLE).Pairwise (fun x y => rowSortLE x y = true) :=
      List.sorted_mergeSort rowSortLE_trans rowSortLE_total rows
    have hsorted' : (rows.mergeSort rowSortLE).Pairwise (fun x y =>
        _pint y.stock < _pint x.stock ∨
          (_pint x.stock = _pint y.stock ∧ _pfloat x.price ≤ _pfloat y.price)) :=
      hsorted.imp (fun h => (rowSortLE_iff _ _).mp h)
    simp only [sortAndCap]
    split_ifs with h
    · unfold pySliceTake
      split_ifs with hneg
      · exact List.Pairwise.sublist (List.take_sublist _ _) hsorted'
      · exact List.Pairwise.sublist (List.take_sublist _ _) hsorted'
    · exact hsorted'
  · intro hpos hlen
    simp only [sortAndCap]
    rw [if_pos ⟨by omega, by rw [List.length_mergeSort]; exact hlen⟩]
    unfold pySliceTake
    rw [if_neg (by omega)]
  · have m12 : rowSortLE rowE1 rowE2 = false := by with_unfolding_all rfl
    have m21 : rowSortLE rowE2 rowE1 = true := by with_unfolding_all rfl
    have m23 : rowSortLE rowE2 rowE3 = true := by with_unfolding_all rfl
    have m13 : rowSortLE rowE1 rowE3 = true := by with_unfolding_all rfl
    simp [sortAndCap, List.mergeSort, List.merge, List.splitInTwo, List.splitAt_eq,
      m12, m21, m23, m13, pySliceTake]

/-- C4 witness: the truncation clause instantiated at Scenario E. -/
theorem C4_sort_and_cap_witness :
    (0 : ℤ) < ({ defaultConfig with MAX_PRODUCTS := 2 } : Config).MAX_PRODUCTS ∧
    ({ defaultConfig with MAX_PRODUCTS := 2 } : Config).MAX_PRODUCTS <
      (([rowE1, rowE2, rowE3] : List Row).length : ℤ) ∧
    sortAndCap { defaultConfig with MAX_PRODUCTS := 2 } [rowE1, rowE2, rowE3] =
      ([rowE1, rowE2, rowE3].mergeSort rowSortLE).take
        ({ defaultConfig with MAX_PRODUCTS := 2 } : Config).MAX_PRODUCTS.toNat := by
  refine ⟨by with_unfolding_all decide, by with_unfolding_all decide, ?_⟩
  exact (C4_sort_and_cap { defaultConfig with MAX_PRODUCTS := 2 } [rowE1, rowE2, rowE3] 0 0).2.2.1
    (by with_unfolding_all decide) (by with_unfolding_all decide)

/-- C5: the price band check of the filter reads the primary `price`
field with both endpoints inclusive — the parsed `price` of a kept record lies in
`[MIN_PRICE, MAX_PRICE]` (first conjunct; boundary records at 10 and 80
are kept, one cent outside is rejected: conjuncts five to eight), the
keep decision never reads `pvp_bigbuy` (second conjunct) and is
independent of `AVP_SOURCE` (third conjunct), even though `AVP_SOURCE`
selects `pvp_bigbuy` for the pricing floor (fourth conjunct). -/
theorem C5_band_uses_primary_price (cfg : Config) (rules : RuleSet) (now : ℤ)
    (r : Row) (v src : String) :
    (_keep_row cfg rules now r = true →
      cfg.MIN_PRICE ≤ _pfloat r.price ∧ _pfloat r.price ≤ cfg.MAX_PRICE) ∧
    _keep_row cfg rules now { r with pvp_bigbuy := v } = _keep_row cfg rules now r ∧
    _keep_row { cfg with AVP_SOURCE := src } rules now r = _keep_row cfg rules now r ∧
    avpChoice { cfg with AVP_SOURCE := "pvp_bigbuy" } r = _pfloat r.pvp_bigbuy ∧
    _keep_row defaultConfig emptyRules 0 rowAt10 = true ∧
    _keep_row defaultConfig emptyRules 0 rowAt80 = true ∧
    _keep_row defaultConfig emptyRules 0 rowBelow10 = false ∧
    _keep_row defaultConfig emptyRules 0 rowAbove80 = false := by
  refine ⟨?_, rfl, rfl, by simp [avpChoice], ?_, ?_, ?_, ?_⟩
  · intro h
    exact ((keep_row_iff cfg rules now r).mp h).2.2.1
  · with_unfolding_all rfl
  · with_unfolding_all rfl
  · with_unfolding_all rfl
  · with_unfolding_all rfl

/-- C5 witness: the band bounds instantiated at the record priced
exactly at the lower endpoint. -/
theorem C5_band_uses_primary_price_witness :
    _keep_row defaultConfig emptyRules 0 rowAt10 = true ∧
    (defaultConfig.MIN_PRICE ≤ _pfloat rowAt10.price ∧
      _pfloat rowAt10.price ≤ defaultConfig.MAX_PRICE) := by
  have h := C5_band_uses_primary_price defaultConfig emptyRules 0 rowAt10 "x" "pvp_bigbuy"
  have hk : _keep_row defaultConfig emptyRules 0 rowAt10 = true := h.2.2.2.2.1
  exact ⟨hk, h.1 hk⟩

/-- C6: the keep predicate is monotone in each threshold: raising
`MIN_PRICE` or `MIN_STOCK`, or lowering `MAX_PRICE`, `MAX_WEIGHT` or
`RECENT_MONTHS`, never turns a rejected record into a kept one (each
conjunct states the equivalent: a record kept under the tighter
threshold stays kept under the looser one). -/
theorem C6_monotonicity (cfg : Config) (rules : RuleSet) (now : ℤ) (r : Row)
    (a b : ℚ) (m n : ℤ) :
    (a ≤ b → _keep_row { cfg with MIN_PRICE := b } rules now r = true →
      _keep_row { cfg with MIN_PRICE := a } rules now r = true) ∧
    (a ≤ b → _keep_row { cfg with MAX_PRICE := a } rules now r = true →
      _keep_row { cfg with MAX_PRICE := b } rules now r = true) ∧
    (m ≤ n → _keep_row { cfg with MIN_STOCK := n } rules now r = true →
      _keep_row { cfg with MIN_STOCK := m } rules now r = true) ∧
    (a ≤ b → _keep_row { cfg with MAX_WEIGHT := a } rules now r = true →
      _keep_row { cfg with MAX_WEIGHT := b } rules now r = true) ∧
    (m ≤ n → _keep_row { cfg with RECENT_MONTHS := m } rules now r = true →
      _keep_row { cfg with RECENT_MONTHS := n } rules now r = true) := by
  refine ⟨?_, ?_, ?_, ?_, ?_⟩ <;> intro hle h <;>
    rw [keep_row_iff] at h ⊢ <;>
    obtain ⟨h1, h2, ⟨h3a, h3b⟩, h4, h5, h6, h7, h8⟩ := h
  · exact ⟨h1, h2, ⟨le_trans hle h3a, h3b⟩, h4, h5, h6, h7, h8⟩
  · exact ⟨h1, h2, ⟨h3a, le_trans h3b hle⟩, h4, h5, h6, h7, h8⟩
  · exact ⟨h1, le_trans hle h2, ⟨h3a, h3b⟩, h4, h5, h6, h7, h8⟩
  · refine ⟨h1, h2, ⟨h3a, h3b⟩, h4, ?_, h6, h7, h8⟩
    intro hc
    exact h5 ⟨hc.1, lt_of_le_of_lt hle hc.2⟩
  · refine ⟨h1, h2, ⟨h3a, h3b⟩, h4, h5, ?_, h7, h8⟩
    intro hc
    have hrm : _is_recent { cfg with RECENT_MONTHS := m } now r.date_upd = true := by
      by_contra hx
      exact h6 ⟨hc.1, hx⟩
    exact hc.2 (is_recent_mono { cfg with RECENT_MONTHS := m }
      { cfg with RECENT_MONTHS := n } now r.date_upd hle hrm)

/-- C6 witness: each monotonicity conjunct exercised at a concrete kept
record under the default configuration. -/
theorem C6_monotonicity_witness :
    (9 : ℚ) ≤ 10 ∧ (5 : ℤ) ≤ 6 ∧
    _keep_row { defaultConfig with MIN_PRICE := 10 } emptyRules 0 rowE1 = true ∧
    _keep_row { defaultConfig with MIN_PRICE := 9 } emptyRules 0 rowE1 = true ∧
    _keep_row { defaultConfig with MAX_PRICE := 9 + 71 } emptyRules 0 rowE1 = true ∧
    _keep_row { defaultConfig with MIN_STOCK := 5 } emptyRules 0 rowE1 = true ∧
    _keep_row { defaultConfig with MAX_WEIGHT := 10 } emptyRules 0 rowE1 = true ∧
    _keep_row { defaultConfig with RECENT_MONTHS := 6 } emptyRules 0 rowE1 = true := by
  have h := C6_monotonicity defaultConfig emptyRules 0 rowE1 9 10 5 6
  have h2 := C6_monotonicity defaultConfig emptyRules 0 rowE1 80 (9 + 71) 5 6
  have h3 := C6_monotonicity defaultConfig emptyRules 0 rowE1 8 10 6 18
  have h4 := C6_monotonicity defaultConfig emptyRules 0 rowE1 8 10 5 18
  have hk10 : _keep_row { defaultConfig with MIN_PRICE := 10 } emptyRules 0 rowE1 = true := by
    with_unfolding_all rfl
  have hk80 : _keep_row { defaultConfig with MAX_PRICE := 80 } emptyRules 0 rowE1 = true := by
    with_unfolding_all rfl
  have hk6 : _keep_row { defaultConfig with MIN_STOCK := 6 } emptyRules 0 rowE1 = false := by
    with_unfolding_all rfl
  have hkst : _keep_row { defaultConfig with MIN_STOCK := 5 } emptyRules 0 rowE1 = true := by
    with_unfolding_all rfl
  have hkw : _keep_row { defaultConfig with MAX_WEIGHT := 8 } emptyRules 0 rowE1 = true := by
    with_unfolding_all rfl
  have hkr : _keep_row { defaultConfig with RECENT_MONTHS := 6 } emptyRules 0 rowE1 = true := by
    with_unfolding_all rfl
  refine ⟨by norm_num, by norm_num, hk10, ?_, ?_, hkst, ?_, hkr⟩
  · exact h.1 (by norm_num) hk10
  · exact h2.2.1 (by norm_num) hk80
  · exact h4.2.2.2.1 (by norm_num) hkw

/-- C8: an absent or unparseable `stock` is coerced to the default 0
(first conjunct), making the keep decision agree with an explicit
`"0"` stock (second conjunct) and rejecting whenever `MIN_STOCK > 0`
(third conjunct); a zero or absent `weight` makes the decision
independent of `MAX_WEIGHT`, so it never causes rejection (fourth
conjunct); Scenario B: the record with missing stock and weight and
valid price/ean13/image1 is rejected under the default `MIN_STOCK = 1`
and kept under `MIN_STOCK = 0` (fifth and sixth conjuncts). The
predicate is a total function, so it never raises. -/
theorem C8_stock_weight_defaults (cfg : Config) (rules : RuleSet) (now : ℤ)
    (r : Row) (x : String) (d : ℤ) (mw mw' : ℚ) :
    (parseDecimal x = none → _pint x d = d) ∧
    (parseDecimal r.stock = none →
      _keep_row cfg rules now r = _keep_row cfg rules now { r with stock := "0" }) ∧
    (parseDecimal r.stock = none → 0 < cfg.MIN_STOCK →
      _keep_row cfg rules now r = false) ∧
    (_pfloat r.weight = 0 →
      _keep_row { cfg with MAX_WEIGHT := mw } rules now r =
        _keep_row { cfg with MAX_WEIGHT := mw' } rules now r) ∧
    _keep_row defaultConfig emptyRules 0 rowB = false ∧
    _keep_row { defaultConfig with MIN_STOCK := 0 } emptyRules 0 rowB = true := by
  have hpint : ∀ s : String, parseDecimal s = none → _pint s = 0 := by
    intro s hs
    unfold _pint
    rw [hs]
  refine ⟨?_, ?_, ?_, ?_, by with_unfolding_all rfl, by with_unfolding_all rfl⟩
  · intro h
    unfold _pint
    rw [h]
  · intro h
    have h0 : _pint ("0" : String) = 0 := by with_unfolding_all rfl
    rw [Bool.eq_iff_iff, keep_row_iff, keep_row_iff]
    simp [hpint r.stock h, h0]
  · intro h hms
    rw [Bool.eq_false_iff]
    intro hkeep
    rw [keep_row_iff] at hkeep
    have := hkeep.2.1
    rw [hpint r.stock h] at this
    omega
  · intro h
    rw [Bool.eq_iff_iff, keep_row_iff, keep_row_iff]
    simp [h]
    intros
    exact Iff.rfl

/-- C8 witness: the default-coercion conjuncts instantiated at the
Scenario B record. -/
theorem C8_stock_weight_defaults_witness :
    parseDecimal rowB.stock = none ∧
    _pint rowB.stock 7 = 7 ∧
    0 < defaultConfig.MIN_STOCK ∧
    _keep_row defaultConfig emptyRules 0 rowB = false ∧
    _pfloat rowB.weight = 0 ∧
    (_keep_row { defaultConfig with MAX_WEIGHT := 1 } emptyRules 0 rowB =
      _keep_row { defaultConfig with MAX_WEIGHT := 100 } emptyRules 0 rowB) := by
  have h := C8_stock_weight_defaults defaultConfig emptyRules 0 rowB rowB.stock 7 1 100
  have hn : parseDecimal rowB.stock = none := by with_unfolding_all rfl
  have hms : 0 < defaultConfig.MIN_STOCK := by with_unfolding_all decide
  have hw : _pfloat rowB.weight = 0 := by with_unfolding_all rfl
  exact ⟨hn, h.1 hn, hms, h.2.2.1 hn hms, hw, h.2.2.2.1 hw⟩

/-! ## Claims -/

/-- C2 counterexample: with wholesale cost 10.00, tax-inclusive
reference retail 15.00, tax 21%, fee 12% plus 0.30 fixed, default
shipping, minimum profit 3.00, minimum margin 15% and price band
[10, 80] (the default configuration), the pricing computation does NOT
return `sell_price = 24.99`. -/
theorem C2_scenario_a_counterexample :
    (_calc_fields defaultConfig 10 15 (some 21)).sell_price ≠ 2499/100 := by
  with_unfolding_all decide

/-- C2 (amended): under the Scenario A inputs (wholesale cost 10.00,
reference retail 15.00 tax-inclusive, tax 21%, fee 12% + 0.30, default
shipping 0, min profit 3.00, min margin 15%, price band [10, 80]) the
pricing computation returns `sell_price = 19.99`: the binding floor is
`floor_profit = 13.30 / 0.67 ≈ 19.85`, which rounds up to 20 and ends
on `.99`. -/
theorem C2_scenario_a_amended :
    (_calc_fields defaultConfig 10 15 (some 21)).sell_price = 1999/100 := by
  with_unfolding_all rfl

/-- C1 counterexample: the claimed invariant
`sell_price ≥ max(min_price, reference_retail_inclusive)` fails at the
default configuration with wholesale cost 1 and reference retail 30:
both floors stay below 30, so the base price is exactly 30, and
ceiling-minus-cent rounding yields 29.99 < 30. -/
theorem C1_pricing_floor_counterexample :
    (_calc_fields defaultConfig 1 30 none).sell_price <
      max defaultConfig.MIN_PRICE 30 := by
  have h : (_calc_fields defaultConfig 1 30 none).sell_price = 2999/100 := by
    with_unfolding_all rfl
  have hmp : defaultConfig.MIN_PRICE = 10 := rfl
  rw [h, hmp, max_eq_right (by norm_num : (10:ℚ) ≤ 30)]
  norm_num

/-- C1 (amended): whenever `max_price` is a whole number of cents, the
returned sell price satisfies `sell_price ≤ max_price` and
`sell_price ≥ min(max_price, max(min_price, reference_retail_inclusive) − 0.01)`:
the `.99`-ending rounding can land up to one cent below the floor
`max(min_price, reference_retail_inclusive)`, and the `max_price` clamp
can cut arbitrarily far below it. -/
theorem C1_pricing_floor (cfg : Config) (pvd avp : ℚ) (iva_pct : Option ℚ)
    (h : IsCents cfg.MAX_PRICE) :
    (_calc_fields cfg pvd avp iva_pct).sell_price ≤ cfg.MAX_PRICE ∧
    min cfg.MAX_PRICE (max cfg.MIN_PRICE avp - 1/100) ≤
      (_calc_fields cfg pvd avp iva_pct).sell_price := by
  rw [sell_price_eq_calc_s cfg pvd avp iva_pct h]
  constructor
  · rw [calc_s, qmin_eq]
    exact min_le_left _ _
  · have hbase : max cfg.MIN_PRICE avp ≤ calc_s_base cfg pvd avp iva_pct := by
      rw [calc_s_base, qmax_eq, qmax_eq, qmax_eq]
      have havp : avp ≤ if avp = 0 then 0 else avp := by
        by_cases ha : avp = 0 <;> simp [ha]
      exact max_le (le_max_left _ _)
        (le_trans havp (le_trans (le_max_right _ _)
          (le_trans (le_max_right _ _) (le_max_right _ _))))
    have hceil : calc_s_base cfg pvd avp iva_pct ≤
        _round_up_to_euro (calc_s_base cfg pvd avp iva_pct) := by
      rw [_round_up_to_euro, qmax_eq, ratCeil_eq]
      exact le_trans (le_max_right _ _) (Int.le_ceil _)
    rw [calc_s, qmin_eq]
    apply min_le_min (le_refl _)
    have := le_trans hbase hceil
    linarith

/-- C1 witness: the amended bounds instantiated at the default
configuration with wholesale cost 1 and reference retail 30. -/
theorem C1_pricing_floor_witness :
    IsCents defaultConfig.MAX_PRICE ∧
    ((_calc_fields defaultConfig 1 30 none).sell_price ≤ defaultConfig.MAX_PRICE ∧
     min defaultConfig.MAX_PRICE (max defaultConfig.MIN_PRICE 30 - 1/100) ≤
       (_calc_fields defaultConfig 1 30 none).sell_price) := by
  have hc : IsCents defaultConfig.MAX_PRICE := ⟨8000, by norm_num [defaultConfig]⟩
  exact ⟨hc, C1_pricing_floor defaultConfig 1 30 none hc⟩

/-- C3 counterexample: the claim fails as stated ("for every input"):
under `extremeConfig` with per-record tax 200%, wholesale 0 and
reference retail 0, the computation returns `ok = TRUE` (the internal
margin is hard-coded to 0 because `sell_price = -0.01 ≤ 0`, and all
thresholds are negative), yet recomputing `margin = profit/sell_price`
from the returned sell price gives `0.01 / -0.01 = -1`, below the
required `-0.5`. -/
theorem C3_compliance_counterexample :
    (_calc_fields extremeConfig 0 0 (some 200)).ok = true ∧
    ((_calc_fields extremeConfig 0 0 (some 200)).sell_price *
        (1 - calc_vat extremeConfig (some 200) - extremeConfig.BOL_FEE_PCT / 100) -
        (extremeConfig.BOL_FEE_FIXED + extremeConfig.SHIP_COST_EUR + 0)) /
        (_calc_fields extremeConfig 0 0 (some 200)).sell_price <
      extremeConfig.MIN_MARGIN_PCT / 100 := by
  constructor
  · with_unfolding_all rfl
  · with_unfolding_all decide

/-- C3 (amended): whenever `ok = TRUE`, provided `min_price > 0` and
`max_price` is a whole number of cents, recomputing
`profit = sell_price·(1 − vat − fee_pct) − (fee_fixed + ship + wholesale)`
and `margin = profit / sell_price` from the returned `sell_price`
independently satisfies `profit ≥ min_profit_eur` and
`margin ≥ min_margin_pct/100`. -/
theorem C3_compliance (cfg : Config) (pvd avp : ℚ) (iva_pct : Option ℚ)
    (hc : IsCents cfg.MAX_PRICE) (hmp : 0 < cfg.MIN_PRICE)
    (hok : (_calc_fields cfg pvd avp iva_pct).ok = true) :
    cfg.MIN_PROFIT_EUR ≤
      (_calc_fields cfg pvd avp iva_pct).sell_price *
        (1 - calc_vat cfg iva_pct - cfg.BOL_FEE_PCT / 100) -
        (cfg.BOL_FEE_FIXED + cfg.SHIP_COST_EUR + pvd) ∧
    cfg.MIN_MARGIN_PCT / 100 ≤
      ((_calc_fields cfg pvd avp iva_pct).sell_price *
        (1 - calc_vat cfg iva_pct - cfg.BOL_FEE_PCT / 100) -
        (cfg.BOL_FEE_FIXED + cfg.SHIP_COST_EUR + pvd)) /
        (_calc_fields cfg pvd avp iva_pct).sell_price := by
  rw [calc_ok_iff] at hok
  obtain ⟨hprof, hmarg, hsmin, _⟩ := hok
  rw [sell_price_eq_calc_s cfg pvd avp iva_pct hc]
  have hrecomp : calc_s cfg pvd avp iva_pct *
      (1 - calc_vat cfg iva_pct - cfg.BOL_FEE_PCT / 100) -
      (cfg.BOL_FEE_FIXED + cfg.SHIP_COST_EUR + pvd) =
      calc_profit cfg pvd avp iva_pct := rfl
  have hspos : 0 < calc_s cfg pvd avp iva_pct := lt_of_lt_of_le hmp hsmin
  rw [hrecomp]
  refine ⟨hprof, ?_⟩
  rw [calc_margin, if_pos hspos] at hmarg
  exact hmarg

/-- C3 witness: the amended statement instantiated at the default
configuration with wholesale 10, reference retail 15, tax 21%. -/
theorem C3_compliance_witness :
    IsCents defaultConfig.MAX_PRICE ∧ 0 < defaultConfig.MIN_PRICE ∧
    (_calc_fields defaultConfig 10 15 (some 21)).ok = true ∧
    defaultConfig.MIN_PROFIT_EUR ≤
      (_calc_fields defaultConfig 10 15 (some 21)).sell_price *
        (1 - calc_vat defaultConfig (some 21) - defaultConfig.BOL_FEE_PCT / 100) -
        (defaultConfig.BOL_FEE_FIXED + defaultConfig.SHIP_COST_EUR + 10) ∧
    defaultConfig.MIN_MARGIN_PCT / 100 ≤
      ((_calc_fields defaultConfig 10 15 (some 21)).sell_price *
        (1 - calc_vat defaultConfig (some 21) - defaultConfig.BOL_FEE_PCT / 100) -
        (defaultConfig.BOL_FEE_FIXED + defaultConfig.SHIP_COST_EUR + 10)) /
        (_calc_fields defaultConfig 10 15 (some 21)).sell_price := by
  have hc : IsCents defaultConfig.MAX_PRICE := by
    refine ⟨8000, ?_⟩
    have h80 : defaultConfig.MAX_PRICE = 80 := rfl
    rw [h80]
    norm_num
  have hmp : 0 < defaultConfig.MIN_PRICE := by with_unfolding_all decide
  have hok : (_calc_fields defaultConfig 10 15 (some 21)).ok = true := by
    with_unfolding_all rfl
  have h := C3_compliance defaultConfig 10 15 (some 21) hc hmp hok
  exact ⟨hc, hmp, hok, h.1, h.2⟩

/-- C9: the pricing computation is total with respect to division: both
profitability-floor denominators are bounded below by the positive
constant `1e-9`, and the margin is `profit / sell_price` exactly when
the pre-rounding sell price is positive and exactly `0` otherwise. -/
theorem C9_division_total (cfg : Config) (pvd avp : ℚ) (iva_pct : Option ℚ) :
    epsDenom ≤ calc_denom_profit cfg iva_pct ∧
    0 < calc_denom_profit cfg iva_pct ∧
    epsDenom ≤ calc_denom_margin cfg iva_pct ∧
    0 < calc_denom_margin cfg iva_pct ∧
    (calc_s cfg pvd avp iva_pct ≤ 0 → calc_margin cfg pvd avp iva_pct = 0) ∧
    (0 < calc_s cfg pvd avp iva_pct →
      calc_margin cfg pvd avp iva_pct =
        calc_profit cfg pvd avp iva_pct / calc_s cfg pvd avp iva_pct) := by
  have heps : (0 : ℚ) < epsDenom := by norm_num [epsDenom]
  have h1 : epsDenom ≤ calc_denom_profit cfg iva_pct := by
    rw [calc_denom_profit, qmax_eq]; exact le_max_left _ _
  have h2 : epsDenom ≤ calc_denom_margin cfg iva_pct := by
    rw [calc_denom_margin, qmax_eq]; exact le_max_left _ _
  refine ⟨h1, lt_of_lt_of_le heps h1, h2, lt_of_lt_of_le heps h2, ?_, ?_⟩
  · intro hs
    rw [calc_margin, if_neg (not_lt.mpr hs)]
  · intro hs
    rw [calc_margin, if_pos hs]

/-- C9 witness: concrete instantiation at the default configuration
with wholesale 10, reference retail 15, tax 21%. -/
theorem C9_division_total_witness :
    0 < calc_s defaultConfig 10 15 (some 21) ∧
    calc_margin defaultConfig 10 15 (some 21) =
      calc_profit defaultConfig 10 15 (some 21) / calc_s defaultConfig 10 15 (some 21) := by
  have hs : 0 < calc_s defaultConfig 10 15 (some 21) := by with_unfolding_all decide
  exact ⟨hs, (C9_division_total defaultConfig 10 15 (some 21)).2.2.2.2.2 hs⟩

/-- Mapping a character to itself twice under the comma-to-dot
replacement is the same as once. -/
theorem commaToDot_idem (s : String) : commaToDot (commaToDot s) = commaToDot s := by
  unfold commaToDot
  rw [String.toList]
  simp only [List.map_map]
  refine congrArg String.mk (List.map_congr_left fun c _ => ?_)
  by_cases h : c = ',' <;> simp [Function.comp, h]

/-- C10: the decimal coercion helper `_pfloat` replaces every comma by
a period before parsing (so `"12,5"` parses as `12.5`, and parsing a
string is the same as parsing its comma-normalised form), and returns
the supplied default whenever parsing still fails. Totality (never
raising) is inherent in the `def`. -/
theorem C10_pfloat_comma (s : String) (d : ℚ) :
    _pfloat "12,5" d = 25/2 ∧
    _pfloat s d = _pfloat (commaToDot s) d ∧
    (parseDecimal (commaToDot s) = none → _pfloat s d = d) := by
  refine ⟨by with_unfolding_all rfl, ?_, ?_⟩
  · unfold _pfloat
    rw [commaToDot_idem]
  · intro h
    unfold _pfloat
    rw [h]

/-- C10 witness: concrete instantiation at the unparseable string
`"garbage"` with default 7. -/
theorem C10_pfloat_comma_witness :
    _pfloat "12,5" 7 = 25/2 ∧
    parseDecimal (commaToDot "garbage") = none ∧
    _pfloat "garbage" 7 = 7 := by
  have h := C10_pfloat_comma "garbage" 7
  have hn : parseDecimal (commaToDot "garbage") = none := by with_unfolding_all rfl
  exact ⟨h.1, hn, h.2.2 hn⟩

/-- C7: the recency check never rejects a record whose `date_upd` is
empty or unparseable (fail-open); a present, parseable timestamp whose
age in whole days exceeds `RECENT_MONTHS * 30` is exactly what causes
rejection. -/
theorem C7_recency_fail_open (cfg : Config) (rules : RuleSet) (now : ℤ)
    (iso : String) (r : Row) (dt : ℤ) :
    _is_recent cfg now "" = true ∧
    (parseTimestamp (pyStrip iso.toList) = none → _is_recent cfg now iso = true) ∧
    (parseTimestamp (pyStrip iso.toList) = some dt →
      (_is_recent cfg now iso = true ↔
        Int.fdiv (now - dt) 86400 ≤ cfg.RECENT_MONTHS * 30)) ∧
    (parseTimestamp (pyStrip r.date_upd.toList) = none →
      _keep_row cfg rules now r = _keep_row cfg rules now { r with date_upd := "" }) ∧
    (parseTimestamp (pyStrip r.date_upd.toList) = some dt →
      cfg.RECENT_MONTHS * 30 < Int.fdiv (now - dt) 86400 →
      _keep_row cfg rules now r = false) := by
  have hempty : ∀ dt', parseTimestamp (pyStrip ("" : String).toList) ≠ some dt' := by
    intro dt' hco
    simp [pyStrip, parseTimestamp] at hco
  refine ⟨by simp [_is_recent], ?_, ?_, ?_, ?_⟩
  · intro h
    by_cases hiso : iso = ""
    · simp [_is_recent, hiso]
    · simp only [_is_recent, if_neg hiso]
      rw [h]
  · intro h
    by_cases hiso : iso = ""
    · rw [hiso] at h
      exact absurd h (hempty dt)
    · simp only [_is_recent, if_neg hiso]
      rw [h]
      simp only [decide_eq_true_eq]
  · intro h
    have hrec : _is_recent cfg now r.date_upd = true := by
      by_cases hiso : r.date_upd = ""
      · simp [_is_recent, hiso]
      · simp only [_is_recent, if_neg hiso]
        rw [h]
    rw [Bool.eq_iff_iff, keep_row_iff, keep_row_iff]
    simp [hrec]
  · intro h hold
    have hne : r.date_upd ≠ "" := by
      intro he
      rw [he] at h
      exact absurd h (hempty dt)
    have hrec : _is_recent cfg now r.date_upd = false := by
      simp only [_is_recent, if_neg hne]
      rw [h]
      simp only [decide_eq_false_iff_not]
      omega
    rw [Bool.eq_false_iff]
    intro hkeep
    rw [keep_row_iff] at hkeep
    exact hkeep.2.2.2.2.2.1 ⟨hne, by simp [hrec]⟩


/-- C7 witness: concrete instantiations with an unparseable date, an
empty date, and a parseable two-year-old date rejected 600 days later. -/
theorem C7_recency_fail_open_witness :
    _is_recent defaultConfig 0 "" = true ∧
    parseTimestamp (pyStrip ("totally bad date".toList)) = none ∧
    _is_recent defaultConfig 0 "totally bad date" = true ∧
    parseTimestamp (pyStrip (rowOld.date_upd.toList)) = some 1704164645 ∧
    (_is_recent defaultConfig 1704164645 rowOld.date_upd = true ↔
      Int.fdiv (1704164645 - 1704164645) 86400 ≤ defaultConfig.RECENT_MONTHS * 30) ∧
    (_keep_row defaultConfig emptyRules 0 rowE1 =
      _keep_row defaultConfig emptyRules 0 { rowE1 with date_upd := "" }) ∧
    _keep_row defaultConfig emptyRules 1756004645 rowOld = false := by
  have h1 := C7_recency_fail_open defaultConfig emptyRules 0 "totally bad date" rowE1 0
  have h2 := C7_recency_fail_open defaultConfig emptyRules 1756004645
    rowOld.date_upd rowOld 1704164645
  have h3 := C7_recency_fail_open defaultConfig emptyRules 1704164645
    rowOld.date_upd rowOld 1704164645
  have hn : parseTimestamp (pyStrip ("totally bad date".toList)) = none := by
    with_unfolding_all rfl
  have hs : parseTimestamp (pyStrip (rowOld.date_upd.toList)) = some 1704164645 := by
    with_unfolding_all rfl
  have hn1 : parseTimestamp (pyStrip (rowE1.date_upd.toList)) = none := by
    with_unfolding_all rfl
  have hold : defaultConfig.RECENT_MONTHS * 30 <
      Int.fdiv (1756004645 - 1704164645) 86400 := by
    with_unfolding_all decide
  exact ⟨h1.1, hn, h1.2.1 hn, hs, h3.2.2.1 hs, h1.2.2.2.1 hn1, h2.2.2.2.2 hs hold⟩

end Primevo
